import Mathlib

/-!
Verification development for the StealthPay402 stealth-payment core.

The definitions below are a shallow embedding of the repository's code:
* `StealthPaymentRouter` (contracts/core), `StealthAnnouncer`,
  `AgentRegistry`, `ComplianceGate`, `X402Lib`, `MockUSDC` — Solidity 0.8
  contracts.  Solidity `uint256` values are modelled as `Nat`; checked
  arithmetic reverts on overflow, which is modelled with explicit
  `2 ^ 256` guards at the operations the contracts perform; the one
  `unchecked` balance credit of the OpenZeppelin ERC20 wraps and is
  modelled with an explicit `% 2 ^ 256`.  A reverting call is modelled by
  `Except`: an `.error` result carries no post-state, and the
  transaction-boundary wrappers (`processPayment`, `batchProcessPayments`)
  return the caller's pre-state unchanged on error, which is exactly the
  EVM's revert semantics.
* the SDK's stealth-address cryptography (sdk crypto utilities over
  secp256k1), modelled over an arbitrary additively written commutative
  group standing for the secp256k1 group; the curve library's fallible
  decoding (hex parsing, point validation, private-scalar range check) is
  modelled by `Option`-valued decoders.
-/

namespace StealthPay

/-- Two to the 256: the modulus of Solidity's `uint256`. -/
def U256 : Nat := 2 ^ 256

/-- Solidity `address` values: 160-bit machine words. -/
abbrev Address : Type := Fin (2 ^ 160)

/-- Revert reasons of the embedded contracts, one constructor per
distinct `require` / arithmetic failure that the embedding can hit. -/
inductive Err where
  | alreadyProcessed            -- Router: already processed
  | zeroStealthAddress          -- Router: zero stealth address
  | zeroAmount                  -- Router: zero amount
  | invalidEphemeralKeyLength   -- Router: invalid ephemeral key length
  | complianceCheckFailed       -- Router: compliance check failed
  | twaFailed                   -- Router: transferWithAuthorization failed
  | emptyBatch                  -- Router: empty batch
  | batchTooLarge               -- Router: batch too large
  | pausedErr                   -- Pausable: paused
  | notRouter                   -- AgentRegistry: caller is not router
  | agentNotActive              -- AgentRegistry: agent not active
  | dailyLimitExceeded          -- AgentRegistry: daily limit exceeded
  | authNotYetValid             -- MockUSDC: auth not yet valid
  | authExpired                 -- MockUSDC: auth expired
  | authAlreadyUsed             -- MockUSDC: auth already used
  | signatureInvalid            -- MockUSDC: invalid signature
  | invalidSender               -- ERC20: transfer from the zero address
  | invalidReceiver             -- ERC20: transfer to the zero address
  | insufficientBalance         -- ERC20: insufficient balance
  | unsupportedScheme           -- StealthAnnouncer: unsupported scheme
  | zeroStealthAnnounce         -- StealthAnnouncer: zero stealth address
  | badEphemeralLenAnnounce     -- StealthAnnouncer: invalid ephemeral key length
  | alreadyAnnounced            -- StealthAnnouncer: already announced
  | zeroSender                  -- X402Lib: zero sender
  | zeroNonce                   -- X402Lib: zero nonce
  | arithmeticOverflow          -- Solidity 0.8 checked-arithmetic panic
  deriving DecidableEq

/-! ## X402Lib -/

/-- X402Lib.calculateFee: `fee = (amount * feeBps) / 10000` (floor
division on `uint256`). -/
def calculateFee (amount feeBps : Nat) : Nat :=
  amount * feeBps / 10000

/-- X402Lib.validatePaymentParams: the pure precondition checks on a
payment authorization tuple.  Returns `Except` to model the `require`
failures. -/
def validatePaymentParams (now : Nat) (fromAddr : Address) (amount : Nat)
    (validAfter validBefore : Nat) (nonce : Nat) : Except Err Unit :=
  if fromAddr = 0 then .error .zeroSender
  else if amount = 0 then .error .zeroAmount
  else if now < validAfter then .error .authNotYetValid
  else if ¬ now < validBefore then .error .authExpired
  else if nonce = 0 then .error .zeroNonce
  else .ok ()

/-! ## AgentRegistry -/

/-- AgentRegistry's per-agent record (struct `Agent`). -/
structure Agent where
  owner : Address
  metadataHash : Nat
  dailySpendLimit : Nat
  spentToday : Nat
  lastResetTimestamp : Nat
  reputationScore : Nat
  totalTransactions : Nat
  totalVolume : Nat
  isActive : Bool
  registeredAt : Nat
  deriving DecidableEq

/-- One day in seconds, AgentRegistry.ONE_DAY. -/
def ONE_DAY : Nat := 86400

/-- The limit check, stat update and reputation bump of
AgentRegistry.recordTransaction, acting on the (possibly just reset)
agent record. -/
def recordTransactionBody (a : Agent) (amount : Nat) : Except Err Agent :=
  -- Check daily limit (the left-hand sum is a checked uint256 addition)
  if U256 ≤ a.spentToday + amount then .error .arithmeticOverflow
  else if ¬ a.spentToday + amount ≤ a.dailySpendLimit then .error .dailyLimitExceeded
  -- Update stats (checked uint256 additions)
  else if U256 ≤ a.totalTransactions + 1 then .error .arithmeticOverflow
  else if U256 ≤ a.totalVolume + amount then .error .arithmeticOverflow
  -- Every 10th transaction bumps reputation by 10, capped at 1000
  else if (a.totalTransactions + 1) % 10 = 0 ∧ a.reputationScore < 1000 then
    if U256 ≤ a.reputationScore + 10 then .error .arithmeticOverflow
    else
      .ok { a with
        spentToday := a.spentToday + amount,
        totalTransactions := a.totalTransactions + 1,
        totalVolume := a.totalVolume + amount,
        reputationScore :=
          if 1000 < a.reputationScore + 10 then 1000 else a.reputationScore + 10 }
  else
    .ok { a with
      spentToday := a.spentToday + amount,
      totalTransactions := a.totalTransactions + 1,
      totalVolume := a.totalVolume + amount }

/-- AgentRegistry.recordTransaction acting on a single agent record.
Follows the source: activity check, then a daily reset when
`now >= lastResetTimestamp + ONE_DAY` before the limit check and the
stat updates carried out by `recordTransactionBody`.  An `.error`
models a revert (no mutation). -/
def recordTransaction (now : Nat) (a : Agent) (amount : Nat) : Except Err Agent :=
  if ¬ a.isActive then .error .agentNotActive
  -- Reset daily spend if 24 hours have passed
  else if now ≥ a.lastResetTimestamp + ONE_DAY then
    recordTransactionBody { a with spentToday := 0, lastResetTimestamp := now } amount
  else recordTransactionBody a amount

/-- AgentRegistry's contract state: the agent table plus the router
address allowed to call `recordTransaction`. -/
structure RegState where
  routerAddr : Address
  agents : Address → Agent

/-- AgentRegistry.isRegistered: an agent counts as registered while its
record is active. -/
def isRegistered (r : RegState) (agent : Address) : Bool :=
  (r.agents agent).isActive

/-- AgentRegistry.recordTransaction at the contract level: `onlyRouter`
access control, then the per-record update. -/
def regRecordTransaction (r : RegState) (caller : Address) (now : Nat)
    (agent : Address) (amount : Nat) : Except Err RegState :=
  if caller ≠ r.routerAddr then .error .notRouter
  else
    match recordTransaction now (r.agents agent) amount with
    | .error e => .error e
    | .ok a' => .ok { r with agents := fun x => if x = agent then a' else r.agents x }

/-! ## ComplianceGate -/

/-- ComplianceGate's contract state. -/
structure GateState where
  complianceRequired : Bool
  isCompliant : Address → Bool
  verifiedAt : Address → Nat
  complianceExpiry : Nat

/-- ComplianceGate.checkCompliance (a view function): everyone passes
while compliance is not required; otherwise the agent must be verified
and the verification must not have expired. -/
def checkCompliance (g : GateState) (now : Nat) (agent : Address) : Bool :=
  if ¬ g.complianceRequired then true
  else if ¬ g.isCompliant agent then false
  else if g.verifiedAt agent + g.complianceExpiry < now then false
  else true

/-! ## MockUSDC (EIP-3009 USDC ledger) -/

/-- The EIP-712 struct a payer signs for `transferWithAuthorization`
(`TransferWithAuthorization(from,to,value,validAfter,validBefore,nonce)`).
The keccak digest of the encoded struct is collision resistant, so the
digest is modelled by the tuple itself. -/
structure AuthTuple where
  fromAddr : Address
  toAddr : Address
  value : Nat
  validAfter : Nat
  validBefore : Nat
  nonce : Nat
  deriving DecidableEq

/-- Symbolic ECDSA signature: a signature is an object produced by
`signer` over a specific digest.  `recover` on the digest it was made
for returns the signer; on any other digest it fails, modelling
unforgeability of ECDSA. -/
structure Sig where
  signer : Address
  signed : AuthTuple
  deriving DecidableEq

/-- ECDSA.recover over the symbolic signature model. -/
def recover (digest : AuthTuple) (s : Sig) : Option Address :=
  if s.signed = digest then some s.signer else none

/-- MockUSDC's contract state: ERC20 balances and the per-authorizer
set of used EIP-3009 nonces. -/
structure UsdcState where
  balances : Address → Nat
  totalSupply : Nat
  authUsed : Address → Nat → Bool

/-- OpenZeppelin ERC20 `_transfer`: zero-address checks, balance check,
then debit/credit.  The debit is checked by the balance `require`;
the credit is inside an `unchecked` block in the source and therefore
wraps modulo `2 ^ 256`. -/
def erc20Transfer (u : UsdcState) (f t : Address) (value : Nat) : Except Err UsdcState :=
  if f = 0 then .error .invalidSender
  else if t = 0 then .error .invalidReceiver
  else if u.balances f < value then .error .insufficientBalance
  else
    let b1 := fun a => if a = f then u.balances a - value else u.balances a
    let b2 := fun a => if a = t then (b1 a + value) % U256 else b1 a
    .ok { u with balances := b2 }

/-- MockUSDC.mint (testing faucet): checked `totalSupply` increase, then
the same unchecked balance credit as `_transfer`. -/
def mint (u : UsdcState) (toAddr : Address) (amount : Nat) : Except Err UsdcState :=
  if toAddr = 0 then .error .invalidReceiver
  else if U256 ≤ u.totalSupply + amount then .error .arithmeticOverflow
  else
    .ok { u with
      totalSupply := u.totalSupply + amount,
      balances := fun a => if a = toAddr then (u.balances a + amount) % U256 else u.balances a }

/-- MockUSDC.transferWithAuthorization: time-window checks, per-payer
nonce replay check, signature recovery, nonce consumption, then the
ERC20 transfer.  An `.error` models a revert of this call frame. -/
def transferWithAuthorization (u : UsdcState) (now : Nat) (t : AuthTuple)
    (sig : Sig) : Except Err UsdcState :=
  if now < t.validAfter then .error .authNotYetValid
  else if ¬ now < t.validBefore then .error .authExpired
  else if u.authUsed t.fromAddr t.nonce then .error .authAlreadyUsed
  else
    match recover t sig with
    | none => .error .signatureInvalid
    | some signer =>
      if signer ≠ t.fromAddr then .error .signatureInvalid
      else
        let u := { u with
          authUsed := fun a n => if a = t.fromAddr ∧ n = t.nonce then true else u.authUsed a n }
        erc20Transfer u t.fromAddr t.toAddr t.value

/-! ## StealthAnnouncer -/

/-- A stealth announcement, the payload of the `Announcement` event. -/
structure Announcement where
  schemeId : Nat
  stealthAddress : Address
  caller : Address
  ephemeralPubKey : List Nat
  metadata : List Nat
  deriving DecidableEq

/-- StealthAnnouncer's contract state: the monotone counter, the
duplicate-suppression mapping, and the emitted event log. -/
structure AnnState where
  announcementCount : Nat
  announced : Address → Bool
  log : List Announcement

/-- StealthAnnouncer.announce: scheme, zero-address and key-length
checks, the per-stealth-address uniqueness check, then the `unchecked`
counter increment (wrapping on `uint256`) and the event emission. -/
def announce (s : AnnState) (caller : Address) (schemeId : Nat)
    (stealthAddress : Address) (ephemeralPubKey metadata : List Nat) :
    Except Err AnnState :=
  if schemeId ≠ 1 then .error .unsupportedScheme
  else if stealthAddress = 0 then .error .zeroStealthAnnounce
  else if ¬ (ephemeralPubKey.length = 33 ∨ ephemeralPubKey.length = 65) then
    .error .badEphemeralLenAnnounce
  else if s.announced stealthAddress then .error .alreadyAnnounced
  else
    .ok { announcementCount := (s.announcementCount + 1) % U256,
          announced := fun a => if a = stealthAddress then true else s.announced a,
          log := s.log ++ [⟨schemeId, stealthAddress, caller, ephemeralPubKey, metadata⟩] }

/-! ## StealthPaymentRouter -/

/-- StealthPaymentRouter's own storage.  `self` is `address(this)`;
`hasGate` / `hasRegistry` model whether the optional collaborator
addresses are set (non-zero). -/
structure RouterState where
  self : Address
  feeVault : Address
  platformFeeBps : Nat
  processed : Nat → Bool
  paused : Bool
  hasGate : Bool
  hasRegistry : Bool

/-- StealthPaymentRouter.PaymentParams. -/
structure PaymentParams where
  fromAddr : Address
  amount : Nat
  nonce : Nat
  validAfter : Nat
  validBefore : Nat
  stealthAddress : Address
  ephemeralPubKey : List Nat
  viewTag : Nat
  signature : Sig
  deriving DecidableEq

/-- The combined on-chain state the router interacts with, plus the
block timestamp. -/
structure Sys where
  usdc : UsdcState
  ann : AnnState
  reg : RegState
  gate : GateState
  router : RouterState
  now : Nat

/-- Mark a nonce processed in the router's replay-protection mapping. -/
def burnNonce (s : Sys) (n : Nat) : Sys :=
  { s with router := { s.router with
      processed := fun m => if m = n then true else s.router.processed m } }

/-- The EIP-3009 struct the router asks USDC to redeem for a payment:
`transferWithAuthorization(from, address(this), amount, validAfter,
validBefore, nonce, signature)`. -/
def authOf (s : Sys) (p : PaymentParams) : AuthTuple :=
  ⟨p.fromAddr, s.router.self, p.amount, p.validAfter, p.validBefore, p.nonce⟩

/-- The router's agent-registry consultation: if a registry is set and
the payer is registered there, record the transaction (rate limiting);
otherwise the registry is not consulted at all. -/
def regStep (s1 : Sys) (p : PaymentParams) : Except Err Sys :=
  if s1.router.hasRegistry ∧ isRegistered s1.reg p.fromAddr then
    match regRecordTransaction s1.reg s1.router.self s1.now p.fromAddr p.amount with
    | .error e => .error e
    | .ok reg' => .ok { s1 with reg := reg' }
  else .ok s1

/-- The router's fee routing: transfer the fee from the router to the
fee vault when it is nonzero. -/
def feeStep (s3 : Sys) (fee : Nat) : Except Err Sys :=
  if 0 < fee then
    match erc20Transfer s3.usdc s3.router.self s3.router.feeVault fee with
    | .error e => .error e
    | .ok u => .ok { s3 with usdc := u }
  else .ok s3

/-- StealthPaymentRouter._processPayment: the checks, the nonce burn,
the optional compliance and agent-registry consultations, the EIP-3009
redemption (a low-level call whose failure is rethrown as the router's
own revert reason), fee computation and routing, the stealth transfer,
and the announcement.  Returns the post-state together with
`(amount, fee)`. -/
def _processPayment (s : Sys) (p : PaymentParams) : Except Err (Sys × Nat × Nat) :=
  -- ── Checks ──
  if s.router.processed p.nonce then .error .alreadyProcessed
  else if p.stealthAddress = 0 then .error .zeroStealthAddress
  else if p.amount = 0 then .error .zeroAmount
  else if ¬ (p.ephemeralPubKey.length = 33 ∨ p.ephemeralPubKey.length = 65) then
    .error .invalidEphemeralKeyLength
  -- Compliance check (if gate is set); in the source this runs after the
  -- nonce burn, which touches none of the fields it reads, so it is
  -- phrased on the pre-state here.
  else if s.router.hasGate ∧ checkCompliance s.gate s.now p.fromAddr = false then
    .error .complianceCheckFailed
  else
    -- ── Effects ── (processed[params.nonce] = true), then the agent
    -- registry check (if a registry is set and the payer is registered)
    match regStep (burnNonce s p.nonce) p with
    | .error e => .error e
    | .ok s2 =>
      -- ── Interactions ──
      -- Step 1: low-level call to USDC.transferWithAuthorization; a
      -- failing sub-call is reported as twaSuccess = false, and the
      -- router then reverts with its own reason.
      match transferWithAuthorization s2.usdc s2.now (authOf s2 p) p.signature with
      | .error _ => .error .twaFailed
      | .ok usdc' =>
        -- Step 2: fee calculation (checked uint256 multiplication inside
        -- X402Lib.calculateFee, checked subtraction for the recipient
        -- amount)
        if U256 ≤ p.amount * s2.router.platformFeeBps then .error .arithmeticOverflow
        else if p.amount < calculateFee p.amount s2.router.platformFeeBps then
          .error .arithmeticOverflow
        else
          -- Step 3: send fee to vault
          match feeStep { s2 with usdc := usdc' }
              (calculateFee p.amount s2.router.platformFeeBps) with
          | .error e => .error e
          | .ok s4 =>
            -- Step 4: send remaining USDC to the stealth address
            match erc20Transfer s4.usdc s4.router.self p.stealthAddress
                (p.amount - calculateFee p.amount s2.router.platformFeeBps) with
            | .error e => .error e
            | .ok u2 =>
              -- Step 5: announce the stealth payment (metadata is the
              -- single view-tag byte)
              match announce s4.ann s4.router.self 1 p.stealthAddress
                  p.ephemeralPubKey [p.viewTag] with
              | .error e => .error e
              | .ok ann' =>
                .ok ({ s4 with usdc := u2, ann := ann' }, p.amount,
                  calculateFee p.amount s2.router.platformFeeBps)

/-- StealthPaymentRouter.processPayment: the external entry point.  The
pause guard runs first; an internal revert rolls the whole transaction
back, so an `.error` leaves the caller-visible state unchanged. -/
def processPayment (s : Sys) (p : PaymentParams) : Sys × Option Err :=
  if s.router.paused then (s, some .pausedErr)
  else
    match _processPayment s p with
    | .ok (s', _, _) => (s', none)
    | .error e => (s, some e)

/-- The loop body of batchProcessPayments: process the items strictly in
order, threading the working state and accumulating totals with checked
`uint256` additions. -/
def batchLoop (s : Sys) (ps : List PaymentParams) (totalAmount totalFees : Nat) :
    Except Err (Sys × Nat × Nat) :=
  match ps with
  | [] => .ok (s, totalAmount, totalFees)
  | p :: rest =>
    match _processPayment s p with
    | .error e => .error e
    | .ok r =>
      if U256 ≤ totalAmount + r.2.1 then .error .arithmeticOverflow
      else if U256 ≤ totalFees + r.2.2 then .error .arithmeticOverflow
      else batchLoop r.1 rest (totalAmount + r.2.1) (totalFees + r.2.2)

/-- StealthPaymentRouter.batchProcessPayments: pause guard, size bounds,
then the in-order loop.  Any item's revert aborts and rolls back the
whole transaction. -/
def batchProcessPayments (s : Sys) (ps : List PaymentParams) : Sys × Option Err :=
  if s.router.paused then (s, some .pausedErr)
  else if ps.length = 0 then (s, some .emptyBatch)
  else if 50 < ps.length then (s, some .batchTooLarge)
  else
    match batchLoop s ps 0 0 with
    | .ok (s', _, _) => (s', none)
    | .error e => (s, some e)

/-! ## Stealth-address cryptography (SDK crypto utilities)

The SDK derives stealth addresses over secp256k1 via the noble curve
library.  The curve is embedded abstractly: `G` is the curve group
written additively, `gen` the base point, `n` the group order used for
scalar reduction, `hash` the keccak-256 digest of the serialized shared
point (as a 256-bit number), and `addressOf` the ledger's canonical
address derivation from an uncompressed public key.  The library's
fallible byte-level decoding (hex parsing, point validation, the
private-scalar range check of `getSharedSecret`) is modelled by
`Option`-valued decoders, with round-trip laws stating that serializing
a valid key and decoding it back is lossless. -/

structure Curve (G : Type) [AddCommGroup G] where
  gen : G
  n : Nat
  hash : G → Nat
  hash_lt : ∀ x, hash x < 2 ^ 256
  addressOf : G → Nat
  serPub : G → List Nat
  serPriv : Nat → List Nat
  parsePub : List Nat → Option G
  parsePriv : List Nat → Option Nat
  parsePub_serPub : ∀ x, parsePub (serPub x) = some x
  parsePriv_serPriv : ∀ k, 1 ≤ k → k < n → parsePriv (serPriv k) = some k

variable {G : Type} [AddCommGroup G]

/-- computeViewTag: the first byte of the 32-byte shared-secret hash
(big-endian), i.e. the top byte of the 256-bit digest value. -/
def computeViewTag (sharedSecretHash : Nat) : Nat :=
  sharedSecretHash / 2 ^ 248

/-- generateStealthKeys: the two independently sampled private scalars
(passed in, standing for the random source) with their public points and
the published meta-address `spendingPub ‖ viewingPub`, modelled as the
pair of points. -/
def generateStealthKeys (C : Curve G) (spendingPriv viewingPriv : Nat) :
    Nat × Nat × G × G :=
  (spendingPriv, viewingPriv, spendingPriv • C.gen, viewingPriv • C.gen)

/-- generateStealthAddress (sender side): ECDH with the recipient's
viewing key, keccak of the shared point, view tag from the first hash
byte, and the stealth point `spendingPub + h·G`.  The noble scalar
multiplication rejects the zero scalar, so a hash reducing to 0 mod n
makes the call throw, modelled by `none`.  Returns
`(stealthAddress, ephemeralPublicKey, viewTag)`. -/
def generateStealthAddress (C : Curve G) (ephPriv : Nat) (meta : G × G) :
    Option (Nat × G × Nat) :=
  let spendingPub := meta.1
  let viewingPub := meta.2
  let ephPub := ephPriv • C.gen
  let sharedSecretHash := C.hash (ephPriv • viewingPub)
  let viewTag := computeViewTag sharedSecretHash
  let hScalar := sharedSecretHash % C.n
  if hScalar = 0 then none
  else some (C.addressOf (spendingPub + hScalar • C.gen), ephPub, viewTag)

/-- The fallible derivation inside checkStealthAddress: decode the
inputs, ECDH with the viewing private key, reduce the hash mod n
(rejecting 0, which would make the scalar multiplication throw), and
derive the expected address of `spendingPub + h·G`.  `none` models any
raised exception. -/
def checkDerive (C : Curve G) (ephemeralPubKey viewingPrivateKey spendingPubKey :
    List Nat) : Option Nat :=
  match C.parsePriv viewingPrivateKey with
  | none => none
  | some vp =>
    match C.parsePub ephemeralPubKey with
    | none => none
    | some ep =>
      let sharedSecretHash := C.hash (vp • ep)
      let hScalar := sharedSecretHash % C.n
      if hScalar = 0 then none
      else
        match C.parsePub spendingPubKey with
        | none => none
        | some sp => some (C.addressOf (sp + hScalar • C.gen))

/-- checkStealthAddress (recipient side): the whole derivation runs in a
try/catch whose catch returns `false`; on success the derived address is
compared with the announced stealth address. -/
def checkStealthAddress (C : Curve G) (ephemeralPubKey viewingPrivateKey : List Nat)
    (stealthAddress : Nat) (spendingPubKey : List Nat) : Bool :=
  match checkDerive C ephemeralPubKey viewingPrivateKey spendingPubKey with
  | none => false
  | some a => a = stealthAddress

/-- tryMatch: the scanner's per-announcement check (StealthScanner):
recompute the expected view tag from ECDH, reject on a tag mismatch,
otherwise run the full checkStealthAddress; exceptions skip the event.
Returns the matched stealth address. -/
def tryMatch (C : Curve G) (annStealth : Nat) (annEph : List Nat) (annViewTag : Nat)
    (viewingPrivateKey spendingPubKey : List Nat) : Option Nat :=
  match C.parsePriv viewingPrivateKey with
  | none => none
  | some vp =>
    match C.parsePub annEph with
    | none => none
    | some ep =>
      let expectedViewTag := computeViewTag (C.hash (vp • ep))
      if annViewTag ≠ expectedViewTag then none
      else if checkStealthAddress C annEph viewingPrivateKey annStealth spendingPubKey then
        some annStealth
      else none

/-- deriveStealthSpendingKey: the recipient's effective claiming key
`spendingPriv + h mod n`. -/
def deriveStealthSpendingKey (C : Curve G) (spendingPrivateKey : Nat)
    (viewingPrivateKey : List Nat) (ephemeralPubKey : List Nat) : Option Nat :=
  match C.parsePriv viewingPrivateKey with
  | none => none
  | some vp =>
    match C.parsePub ephemeralPubKey with
    | none => none
    | some ep => some ((spendingPrivateKey + C.hash (vp • ep) % C.n) % C.n)

/-! ## Concrete evaluation scenarios

Small closed states used by the witness and counterexample theorems:
address 1 is the payer, 7 the stealth address, 8 the fee vault, 9 the
router contract. -/

/-- An unregistered (inactive, all-zero) agent record: the default value
of AgentRegistry's `_agents` mapping. -/
def agent0 : Agent :=
  ⟨0, 0, 0, 0, 0, 0, 0, 0, false, 0⟩

/-- A registered agent record with a daily limit of 1000. -/
def agentActive : Agent :=
  ⟨1, 0, 1000, 0, 500, 500, 0, 0, true, 500⟩

/-- Base scenario: payer 1 holds 1000000 USDC, no gate and no registry
configured, fee at the deployment default of 10 bps. -/
def sysA : Sys where
  usdc := ⟨fun a => if a = 1 then 1000000 else 0, 1000000, fun _ _ => false⟩
  ann := ⟨0, fun _ => false, []⟩
  reg := ⟨9, fun _ => agent0⟩
  gate := ⟨false, fun _ => false, fun _ => 0, 31536000⟩
  router := ⟨9, 8, 10, fun _ => false, false, false, false⟩
  now := 1000

/-- A valid payment from payer 1 for 10000 USDC units to stealth
address 7, with a correctly signed EIP-3009 authorization for nonce 5. -/
def pA : PaymentParams :=
  ⟨1, 10000, 5, 0, 2000, 7, List.replicate 33 2, 3, ⟨1, ⟨1, 9, 10000, 0, 2000, 5⟩⟩⟩

/-- The state after the payment `pA` settles from `sysA`. -/
def sysA' : Sys := (processPayment sysA pA).1

/-- Same payment with a fresh nonce 6 (and a matching signature), used
to exercise a second settlement. -/
def pA6 : PaymentParams :=
  ⟨1, 10000, 6, 0, 2000, 6, List.replicate 33 2, 3, ⟨1, ⟨1, 9, 10000, 0, 2000, 6⟩⟩⟩

/-- Underfunded scenario: identical to `sysA` except the payer holds no
USDC, so the EIP-3009 redemption fails after the nonce burn. -/
def sysB : Sys where
  usdc := ⟨fun _ => 0, 0, fun _ _ => false⟩
  ann := ⟨0, fun _ => false, []⟩
  reg := ⟨9, fun _ => agent0⟩
  gate := ⟨false, fun _ => false, fun _ => 0, 31536000⟩
  router := ⟨9, 8, 10, fun _ => false, false, false, false⟩
  now := 1000

/-- `sysB` after funding the payer with 1000000 freshly minted USDC. -/
def sysB2 : Sys :=
  { sysB with usdc := (mint sysB.usdc 1 1000000).toOption.getD sysB.usdc }

/-- A batch item that violates the router's zero-amount check. -/
def pBad : PaymentParams :=
  ⟨1, 0, 11, 0, 2000, 12, List.replicate 33 2, 3, ⟨1, ⟨1, 9, 0, 0, 2000, 11⟩⟩⟩

/-- A payment whose signed authorization only becomes valid at time
2000, later than `sysA`'s clock of 1000. -/
def pLate : PaymentParams :=
  ⟨1, 10000, 21, 2000, 3000, 7, List.replicate 33 2, 3, ⟨1, ⟨1, 9, 10000, 2000, 3000, 21⟩⟩⟩

/-- An inactive agent record with nonzero bookkeeping, used to show the
router ignores the agent table for unregistered payers. -/
def agentGhost : Agent :=
  ⟨1, 0, 0, 999999, 0, 500, 3, 999999, false, 500⟩

/-- `sysA` with every agent-table entry replaced by `agentGhost`. -/
def sysAg : Sys :=
  { sysA with reg := { sysA.reg with agents := fun _ => agentGhost } }

/-- The announcement log after announcing stealth address 7 once from a
fresh `StealthAnnouncer`. -/
def annA1 : AnnState :=
  (announce sysA.ann 9 1 7 (List.replicate 33 2) [3]).toOption.getD sysA.ann

/-- The agent record after `agentActive` spends 500 at time 600. -/
def agentA' : Agent :=
  (recordTransaction 600 agentActive 500).toOption.getD agentActive

/-- The agent record after `agentActive` spends the full limit at time
86900, past the daily reset boundary. -/
def agentC' : Agent :=
  (recordTransaction 86900 agentActive 1000).toOption.getD agentActive

/-- The announcement-log invariant: the counter equals the number of
distinct stealth addresses marked as announced. -/
def annInv (s : AnnState) : Prop :=
  s.announcementCount =
    (Finset.univ.filter (fun a : Address => s.announced a = true)).card

/-- A small concrete curve model over the additive group `ZMod 13`
(generator 1), used to evaluate the abstract stealth-address scheme on
closed inputs. -/
def tinyCurve : Curve (ZMod 13) where
  gen := 1
  n := 13
  hash := fun x => x.val
  hash_lt := fun x => lt_trans x.val_lt (by norm_num)
  addressOf := fun x => x.val
  serPub := fun x => [x.val]
  serPriv := fun k => [k]
  parsePub := fun l =>
    match l with
    | [b] => if b < 13 then some ((b : Nat) : ZMod 13) else none
    | _ => none
  parsePriv := fun l =>
    match l with
    | [k] => if 1 ≤ k ∧ k < 13 then some k else none
    | _ => none
  parsePub_serPub := fun x => by
    simp only []
    rw [if_pos x.val_lt]
    exact congrArg some (ZMod.natCast_rightInverse x)
  parsePriv_serPriv := fun k h1 h2 => by
    simp only []
    rw [if_pos ⟨h1, h2⟩]

/-! ## Helper lemmas -/

lemma erc20Transfer_ok_inv {u : UsdcState} {f t : Address} {v : Nat} {u' : UsdcState}
    (h : erc20Transfer u f t v = .ok u') :
    f ≠ 0 ∧ t ≠ 0 ∧ v ≤ u.balances f ∧
    (∀ a, a ≠ f → a ≠ t → u'.balances a = u.balances a) ∧
    (t ≠ f → u'.balances t = (u.balances t + v) % U256) ∧
    (f ≠ t → u'.balances f = u.balances f - v) ∧
    u'.totalSupply = u.totalSupply ∧ u'.authUsed = u.authUsed := by
  unfold erc20Transfer at h
  split at h
  · exact Except.noConfusion h
  · split at h
    · exact Except.noConfusion h
    · split at h
      · exact Except.noConfusion h
      · cases h
        rename_i h0 ht hbal
        refine ⟨h0, ht, by omega, ?_, ?_, ?_, rfl, rfl⟩
        · intro a haf hat
          simp [haf, hat]
        · intro htf
          simp [htf]
        · intro hft
          simp [hft, Ne.symm hft]

lemma twa_ok_inv {u : UsdcState} {now : Nat} {t : AuthTuple} {sig : Sig} {u' : UsdcState}
    (h : transferWithAuthorization u now t sig = .ok u') :
    t.validAfter ≤ now ∧ now < t.validBefore ∧
    u.authUsed t.fromAddr t.nonce = false ∧
    recover t sig = some t.fromAddr ∧
    erc20Transfer
      { u with authUsed := fun a n => if a = t.fromAddr ∧ n = t.nonce then true else u.authUsed a n }
      t.fromAddr t.toAddr t.value = .ok u' := by
  unfold transferWithAuthorization at h
  split at h
  · exact Except.noConfusion h
  · split at h
    · exact Except.noConfusion h
    · split at h
      · exact Except.noConfusion h
      · rename_i h1 h2 h3
        split at h
        · exact Except.noConfusion h
        · rename_i signer hrec
          split at h
          · exact Except.noConfusion h
          · rename_i hsig
            have hsig2 : signer = t.fromAddr := by simpa using hsig
            subst hsig2
            exact ⟨by omega, by omega, by simpa using h3, hrec, h⟩

lemma twa_notYetValid {u : UsdcState} {now : Nat} {t : AuthTuple} {sig : Sig}
    (h : now < t.validAfter) :
    transferWithAuthorization u now t sig = .error .authNotYetValid := by
  unfold transferWithAuthorization
  simp [h]

lemma twa_expired {u : UsdcState} {now : Nat} {t : AuthTuple} {sig : Sig}
    (h1 : t.validAfter ≤ now) (h2 : t.validBefore ≤ now) :
    transferWithAuthorization u now t sig = .error .authExpired := by
  unfold transferWithAuthorization
  simp [Nat.not_lt.mpr h1, Nat.not_lt.mpr h2]

lemma twa_badSig {u : UsdcState} {now : Nat} {t : AuthTuple} {sig : Sig}
    (h1 : t.validAfter ≤ now) (h2 : now < t.validBefore)
    (h3 : u.authUsed t.fromAddr t.nonce = false)
    (h4 : recover t sig ≠ some t.fromAddr) :
    transferWithAuthorization u now t sig = .error .signatureInvalid := by
  unfold transferWithAuthorization
  rw [if_neg (by omega), if_neg (by omega), if_neg (by simp [h3])]
  cases hrec : recover t sig with
  | none => rfl
  | some signer =>
    have hne : signer ≠ t.fromAddr := fun hx => h4 (hx ▸ hrec)
    simp [hne]

lemma announce_not_ok {s : AnnState} {c : Address} {i : Nat} {a : Address}
    {k m : List Nat} (h : s.announced a = true) :
    ∀ r, announce s c i a k m ≠ .ok r := by
  intro r hok
  unfold announce at hok
  repeat' split at hok
  all_goals exact Except.noConfusion hok

lemma announce_ok_inv {s : AnnState} {c : Address} {i : Nat} {a : Address}
    {k m : List Nat} {s' : AnnState} (h : announce s c i a k m = .ok s') :
    i = 1 ∧ a ≠ 0 ∧ (k.length = 33 ∨ k.length = 65) ∧ s.announced a = false ∧
    s' = ⟨(s.announcementCount + 1) % U256,
          fun x => if x = a then true else s.announced x,
          s.log ++ [⟨i, a, c, k, m⟩]⟩ := by
  unfold announce at h
  split at h
  · exact Except.noConfusion h
  · split at h
    · exact Except.noConfusion h
    · split at h
      · exact Except.noConfusion h
      · split at h
        · exact Except.noConfusion h
        · rename_i hi ha hk hann
          cases h
          exact ⟨not_not.mp hi, ha, not_not.mp hk, by simpa using hann, rfl⟩


@[simp] lemma burnNonce_usdc (s : Sys) (n : Nat) : (burnNonce s n).usdc = s.usdc := rfl

@[simp] lemma burnNonce_ann (s : Sys) (n : Nat) : (burnNonce s n).ann = s.ann := rfl

@[simp] lemma burnNonce_reg (s : Sys) (n : Nat) : (burnNonce s n).reg = s.reg := rfl

@[simp] lemma burnNonce_gate (s : Sys) (n : Nat) : (burnNonce s n).gate = s.gate := rfl

@[simp] lemma burnNonce_now (s : Sys) (n : Nat) : (burnNonce s n).now = s.now := rfl

@[simp] lemma burnNonce_self (s : Sys) (n : Nat) : (burnNonce s n).router.self = s.router.self := rfl

@[simp] lemma burnNonce_feeVault (s : Sys) (n : Nat) :
    (burnNonce s n).router.feeVault = s.router.feeVault := rfl

@[simp] lemma burnNonce_feeBps (s : Sys) (n : Nat) :
    (burnNonce s n).router.platformFeeBps = s.router.platformFeeBps := rfl

@[simp] lemma burnNonce_paused (s : Sys) (n : Nat) :
    (burnNonce s n).router.paused = s.router.paused := rfl

@[simp] lemma burnNonce_hasGate (s : Sys) (n : Nat) :
    (burnNonce s n).router.hasGate = s.router.hasGate := rfl

@[simp] lemma burnNonce_hasRegistry (s : Sys) (n : Nat) :
    (burnNonce s n).router.hasRegistry = s.router.hasRegistry := rfl

@[simp] lemma burnNonce_processed (s : Sys) (n m : Nat) :
    (burnNonce s n).router.processed m = if m = n then true else s.router.processed m := rfl

lemma regStep_ok_inv {s1 : Sys} {p : PaymentParams} {s2 : Sys}
    (h : regStep s1 p = .ok s2) :
    s2.usdc = s1.usdc ∧ s2.ann = s1.ann ∧ s2.gate = s1.gate ∧
    s2.router = s1.router ∧ s2.now = s1.now ∧
    (¬ (s1.router.hasRegistry = true ∧ isRegistered s1.reg p.fromAddr = true) →
      s2.reg = s1.reg) ∧
    ((s1.router.hasRegistry = true ∧ isRegistered s1.reg p.fromAddr = true) →
      ∃ reg', regRecordTransaction s1.reg s1.router.self s1.now p.fromAddr p.amount = .ok reg' ∧
        s2.reg = reg') := by
  unfold regStep at h
  split at h
  · rename_i hcond
    split at h
    · exact Except.noConfusion h
    · rename_i reg' hreg
      cases h
      exact ⟨rfl, rfl, rfl, rfl, rfl, fun hc => absurd hcond hc,
             fun _ => ⟨reg', hreg, rfl⟩⟩
  · rename_i hcond
    cases h
    exact ⟨rfl, rfl, rfl, rfl, rfl, fun _ => rfl, fun hc => absurd hc hcond⟩

lemma feeStep_ok_inv {s3 : Sys} {fee : Nat} {s4 : Sys}
    (h : feeStep s3 fee = .ok s4) :
    s4.ann = s3.ann ∧ s4.reg = s3.reg ∧ s4.gate = s3.gate ∧
    s4.router = s3.router ∧ s4.now = s3.now ∧
    ((0 < fee ∧ erc20Transfer s3.usdc s3.router.self s3.router.feeVault fee = .ok s4.usdc) ∨
      (fee = 0 ∧ s4.usdc = s3.usdc)) := by
  unfold feeStep at h
  split at h
  · rename_i hpos
    split at h
    · exact Except.noConfusion h
    · rename_i u hu
      cases h
      exact ⟨rfl, rfl, rfl, rfl, rfl, .inl ⟨hpos, hu⟩⟩
  · rename_i hpos
    cases h
    exact ⟨rfl, rfl, rfl, rfl, rfl, .inr ⟨by omega, rfl⟩⟩

/-- Inversion of a successful `_processPayment` run: everything the
claims need to know about how the post-state relates to the pre-state. -/
lemma _processPayment_ok_inv {s : Sys} {p : PaymentParams} {s' : Sys} {amt fee : Nat}
    (h : _processPayment s p = .ok (s', amt, fee)) :
    amt = p.amount ∧
    fee = calculateFee p.amount s.router.platformFeeBps ∧
    s.router.processed p.nonce = false ∧
    p.stealthAddress ≠ 0 ∧ p.amount ≠ 0 ∧
    (p.ephemeralPubKey.length = 33 ∨ p.ephemeralPubKey.length = 65) ∧
    s'.router = (burnNonce s p.nonce).router ∧
    s'.now = s.now ∧ s'.gate = s.gate ∧
    (¬ (s.router.hasRegistry = true ∧ isRegistered s.reg p.fromAddr = true) →
      s'.reg = s.reg) ∧
    ((s.router.hasRegistry = true ∧ isRegistered s.reg p.fromAddr = true) →
      ∃ reg', regRecordTransaction s.reg s.router.self s.now p.fromAddr p.amount = .ok reg' ∧
        s'.reg = reg') ∧
    (∃ u1 u2,
      transferWithAuthorization s.usdc s.now (authOf s p) p.signature = .ok u1 ∧
      ((0 < fee ∧ erc20Transfer u1 s.router.self s.router.feeVault fee = .ok u2) ∨
        (fee = 0 ∧ u2 = u1)) ∧
      erc20Transfer u2 s.router.self p.stealthAddress (p.amount - fee) = .ok s'.usdc) ∧
    announce s.ann s.router.self 1 p.stealthAddress p.ephemeralPubKey [p.viewTag] = .ok s'.ann := by
  unfold _processPayment at h
  split at h
  · exact Except.noConfusion h
  split at h
  · exact Except.noConfusion h
  split at h
  · exact Except.noConfusion h
  split at h
  · exact Except.noConfusion h
  split at h
  · exact Except.noConfusion h
  split at h
  · exact Except.noConfusion h
  split at h
  · exact Except.noConfusion h
  split at h
  · exact Except.noConfusion h
  split at h
  · exact Except.noConfusion h
  split at h
  · exact Except.noConfusion h
  split at h
  · exact Except.noConfusion h
  split at h
  · exact Except.noConfusion h
  rename_i hproc hzadr hzamt hlen hgate xr s2 hreg xt u1 htwa hmul hsub xf s4 hfee xx u2 hxfer xa ann1 hann
  obtain ⟨r2u, r2a, r2g, r2r, r2n, r2regF, r2regT⟩ := regStep_ok_inv hreg
  obtain ⟨f4a, f4r, f4g, f4rt, f4n, f4u⟩ := feeStep_ok_inv hfee
  simp only [] at f4a f4r f4g f4rt f4n f4u
  simp only [Except.ok.injEq, Prod.mk.injEq] at h
  obtain ⟨hS, hA, hF⟩ := h
  subst hA
  subst hF
  subst hS
  have hself : s2.router.self = s.router.self := by rw [r2r, burnNonce_self]
  have hvault : s2.router.feeVault = s.router.feeVault := by rw [r2r, burnNonce_feeVault]
  have hauth : authOf s2 p = authOf s p := by unfold authOf; rw [hself]
  have hself4 : s4.router.self = s.router.self :=
    (congrArg RouterState.self (f4rt.trans r2r)).trans rfl
  have hann4 : s4.ann = s.ann := f4a.trans r2a
  refine ⟨rfl, ?_, by simpa using hproc, hzadr, hzamt, not_not.mp hlen,
    f4rt.trans r2r, f4n.trans r2n, f4g.trans r2g, ?_, ?_,
    ⟨u1, s4.usdc, ?_, ?_, ?_⟩, ?_⟩
  · rw [r2r, burnNonce_feeBps]
  · intro hc
    exact f4r.trans (r2regF hc)
  · intro hc
    obtain ⟨reg', hr, he⟩ := r2regT hc
    exact ⟨reg', hr, f4r.trans he⟩
  · rw [r2u, r2n, hauth] at htwa
    exact htwa
  · rcases f4u with ⟨hpos, hx⟩ | ⟨hz, hx⟩
    · rw [hself, hvault] at hx
      exact .inl ⟨hpos, hx⟩
    · exact .inr ⟨hz, hx⟩
  · rw [hself4] at hxfer
    exact hxfer
  · rw [hann4, hself4] at hann
    exact hann

lemma _processPayment_replay {s : Sys} {p : PaymentParams}
    (h : s.router.processed p.nonce = true) :
    _processPayment s p = .error .alreadyProcessed := by
  unfold _processPayment
  rw [if_pos h]

lemma processed_mono {t : Sys} {p : PaymentParams} {t' : Sys} {a f : Nat}
    (h : _processPayment t p = .ok (t', a, f)) {n : Nat}
    (hn : t.router.processed n = true) : t'.router.processed n = true := by
  obtain ⟨-, -, -, -, -, -, hr, -⟩ := _processPayment_ok_inv h
  rw [show t'.router.processed n = (burnNonce t p.nonce).router.processed n from by rw [hr],
      burnNonce_processed]
  split
  · rfl
  · exact hn

lemma processPayment_error_frame {s : Sys} {p : PaymentParams} {t : Sys} {e : Err}
    (h : processPayment s p = (t, some e)) : t = s := by
  unfold processPayment at h
  split at h
  · exact (congrArg Prod.fst h).symm
  · split at h
    · exact absurd (congrArg Prod.snd h) (by simp)
    · exact (congrArg Prod.fst h).symm

lemma processPayment_ok_inv {s : Sys} {p : PaymentParams} {s' : Sys}
    (h : processPayment s p = (s', none)) :
    s.router.paused = false ∧ ∃ a f, _processPayment s p = .ok (s', a, f) := by
  unfold processPayment at h
  split at h
  · exact absurd (congrArg Prod.snd h) (by simp)
  · rename_i hp
    split at h
    · rename_i s1 a1 f1 heq
      refine ⟨by simpa using hp, a1, f1, ?_⟩
      rw [show s1 = s' from congrArg Prod.fst h] at heq
      exact heq
    · exact absurd (congrArg Prod.snd h) (by simp)

lemma batchLoop_not_ok {n : Nat} :
    ∀ (ps : List PaymentParams) (t : Sys) (ta tf : Nat),
      t.router.processed n = true → (∃ q ∈ ps, q.nonce = n) →
      ∀ r, batchLoop t ps ta tf ≠ .ok r := by
  intro ps
  induction ps with
  | nil =>
    rintro t ta tf ht ⟨q, hq, hn⟩ r
    exact absurd hq (List.not_mem_nil q)
  | cons p rest ih =>
    rintro t ta tf ht ⟨q, hq, hn⟩ r hok
    unfold batchLoop at hok
    cases hpp : _processPayment t p with
    | error e => rw [hpp] at hok; exact Except.noConfusion hok
    | ok r0 =>
      rw [hpp] at hok
      simp only [] at hok
      rcases List.mem_cons.mp hq with rfl | hq'
      · have ht2 : t.router.processed q.nonce = true := by rw [hn]; exact ht
        rw [_processPayment_replay ht2] at hpp
        exact Except.noConfusion hpp
      · split at hok
        · exact Except.noConfusion hok
        · split at hok
          · exact Except.noConfusion hok
          · exact ih r0.1 _ _ (processed_mono hpp ht) ⟨q, hq', hn⟩ r hok

lemma batchProcessPayments_fails_of_processed {s : Sys} {ps : List PaymentParams} {n : Nat}
    (hproc : s.router.processed n = true) (hex : ∃ q ∈ ps, q.nonce = n) :
    (batchProcessPayments s ps).1 = s ∧ (batchProcessPayments s ps).2 ≠ none := by
  unfold batchProcessPayments
  split
  · exact ⟨rfl, by simp⟩
  · split
    · exact ⟨rfl, by simp⟩
    · split
      · exact ⟨rfl, by simp⟩
      · split
        · rename_i s1 a1 f1 heq
          exact absurd heq (batchLoop_not_ok ps s 0 0 hproc hex (s1, a1, f1))
        · exact ⟨rfl, by simp⟩

lemma batchProcessPayments_error_frame {s : Sys} {ps : List PaymentParams} {t : Sys} {e : Err}
    (h : batchProcessPayments s ps = (t, some e)) : t = s := by
  unfold batchProcessPayments at h
  split at h
  · exact (congrArg Prod.fst h).symm
  · split at h
    · exact (congrArg Prod.fst h).symm
    · split at h
      · exact (congrArg Prod.fst h).symm
      · split at h
        · exact absurd (congrArg Prod.snd h) (by simp)
        · exact (congrArg Prod.fst h).symm

lemma processPayment_fails_of_twa_error {s : Sys} {p : PaymentParams} {e : Err}
    (h : transferWithAuthorization s.usdc s.now (authOf s p) p.signature = .error e) :
    (processPayment s p).1 = s ∧ (processPayment s p).2 ≠ none := by
  cases hpp : processPayment s p with
  | mk t o =>
    cases o with
    | none =>
      obtain ⟨-, a, f, hok⟩ := processPayment_ok_inv hpp
      obtain ⟨-, -, -, -, -, -, -, -, -, -, -, ⟨u1, u2, htwa, -, -⟩, -⟩ :=
        _processPayment_ok_inv hok
      rw [h] at htwa
      exact Except.noConfusion htwa
    | some e' =>
      exact ⟨processPayment_error_frame hpp, by simp⟩

lemma regStep_skip {s1 : Sys} {p : PaymentParams}
    (h : isRegistered s1.reg p.fromAddr = false) : regStep s1 p = .ok s1 := by
  unfold regStep
  rw [if_neg]
  simp [h]

/-- Runs of `_processPayment` from two states that differ only in the
agent table agree on everything except the registry component, provided
the payer is unregistered in both. -/
lemma _processPayment_reg_indep (s : Sys) (p : PaymentParams) (g : Address → Agent)
    (h1 : (s.reg.agents p.fromAddr).isActive = false)
    (h2 : (g p.fromAddr).isActive = false) :
    Except.map (fun r => (r.1.usdc, r.1.ann, r.1.gate, r.1.router, r.1.now, r.2))
        (_processPayment { s with reg := { s.reg with agents := g } } p) =
    Except.map (fun r => (r.1.usdc, r.1.ann, r.1.gate, r.1.router, r.1.now, r.2))
        (_processPayment s p) := by
  obtain ⟨su, sa, ⟨rtr, rag⟩, sgt, srt, sn⟩ := s
  simp only [] at h1
  unfold _processPayment
  rw [regStep_skip (by simpa [isRegistered, burnNonce] using h2),
      regStep_skip (by simpa [isRegistered, burnNonce] using h1)]
  unfold feeStep
  dsimp only [burnNonce, authOf]
  by_cases c1 : srt.processed p.nonce = true
  · rw [if_pos c1, if_pos c1]
  · rw [if_neg c1, if_neg c1]
    by_cases c2 : p.stealthAddress = 0
    · rw [if_pos c2, if_pos c2]
    · rw [if_neg c2, if_neg c2]
      by_cases c3 : p.amount = 0
      · rw [if_pos c3, if_pos c3]
      · rw [if_neg c3, if_neg c3]
        by_cases c4 : ¬(p.ephemeralPubKey.length = 33 ∨ p.ephemeralPubKey.length = 65)
        · rw [if_pos c4, if_pos c4]
        · rw [if_neg c4, if_neg c4]
          by_cases c5 : srt.hasGate = true ∧ checkCompliance sgt sn p.fromAddr = false
          · rw [if_pos c5, if_pos c5]
          · rw [if_neg c5, if_neg c5]
            cases htwa : transferWithAuthorization su sn
                ⟨p.fromAddr, srt.self, p.amount, p.validAfter, p.validBefore, p.nonce⟩
                p.signature with
            | error e => rfl
            | ok usdc1 =>
              simp only []
              by_cases c6 : U256 ≤ p.amount * srt.platformFeeBps
              · rw [if_pos c6, if_pos c6]
              · rw [if_neg c6, if_neg c6]
                by_cases c7 : p.amount < calculateFee p.amount srt.platformFeeBps
                · rw [if_pos c7, if_pos c7]
                · rw [if_neg c7, if_neg c7]
                  by_cases c8 : 0 < calculateFee p.amount srt.platformFeeBps
                  · rw [if_pos c8, if_pos c8]
                    cases hf : erc20Transfer usdc1 srt.self srt.feeVault
                        (calculateFee p.amount srt.platformFeeBps) with
                    | error e => rfl
                    | ok uf =>
                      simp only []
                      cases hx : erc20Transfer uf srt.self p.stealthAddress
                          (p.amount - calculateFee p.amount srt.platformFeeBps) with
                      | error e => rfl
                      | ok u2 =>
                        simp only []
                        cases ha : announce sa srt.self 1 p.stealthAddress
                            p.ephemeralPubKey [p.viewTag] with
                        | error e => rfl
                        | ok ann1 => rfl
                  · rw [if_neg c8, if_neg c8]
                    simp only []
                    cases hx : erc20Transfer usdc1 srt.self p.stealthAddress
                        (p.amount - calculateFee p.amount srt.platformFeeBps) with
                    | error e => rfl
                    | ok u2 =>
                      simp only []
                      cases ha : announce sa srt.self 1 p.stealthAddress
                          p.ephemeralPubKey [p.viewTag] with
                      | error e => rfl
                      | ok ann1 => rfl


/-! ## Claim theorems -/

/-- C7: the announcement log admits each stealth address at most once
(announcing an already-announced address fails), every successful
announce stores the entry and bumps the counter by exactly one, the
counter strictly increases on success, the invariant that the counter
equals the number of distinct announced stealth addresses is preserved,
and it holds in the initial (deployment) state. -/
theorem c7_announce_unique_counter (s : AnnState) (c : Address) (i : Nat)
    (a : Address) (k m : List Nat) :
    (s.announced a = true → ∀ r, announce s c i a k m ≠ .ok r) ∧
    (annInv s → ∀ s', announce s c i a k m = .ok s' →
      s'.announcementCount = s.announcementCount + 1 ∧
      s.announcementCount < s'.announcementCount ∧
      s'.log = s.log ++ [⟨i, a, c, k, m⟩] ∧
      s'.announced a = true ∧ annInv s') ∧
    annInv ⟨0, fun _ => false, []⟩ := by
  refine ⟨fun h => announce_not_ok h, ?_, ?_⟩
  · intro hinv s' hok
    obtain ⟨hi, ha, hk, hann, hs'⟩ := announce_ok_inv hok
    subst hs'
    have hcard : (Finset.univ.filter
        (fun x : Address => s.announced x = true)).card ≤ 2 ^ 160 := by
      have h1 := Finset.card_filter_le Finset.univ
        (fun x : Address => s.announced x = true)
      have h2 : (Finset.univ : Finset Address).card = 2 ^ 160 := by
        rw [Finset.card_univ, Fintype.card_fin]
      exact h1.trans (le_of_eq h2)
    have hlt : s.announcementCount + 1 < U256 := by
      rw [hinv]
      have h2 : (2 : Nat) ^ 160 + 1 < 2 ^ 256 := by norm_num
      unfold U256
      omega
    have hfilter : (Finset.univ.filter (fun x : Address =>
        (if x = a then true else s.announced x) = true))
        = insert a (Finset.univ.filter (fun x : Address => s.announced x = true)) := by
      ext x
      by_cases hx : x = a <;> simp [hx]
    have hnotmem : a ∉ Finset.univ.filter
        (fun x : Address => s.announced x = true) := by
      simp [hann]
    refine ⟨Nat.mod_eq_of_lt hlt, ?_, rfl, by simp, ?_⟩
    · show s.announcementCount < (s.announcementCount + 1) % U256
      rw [Nat.mod_eq_of_lt hlt]
      omega
    · show (s.announcementCount + 1) % U256
        = (Finset.univ.filter (fun x : Address =>
            (if x = a then true else s.announced x) = true)).card
      rw [Nat.mod_eq_of_lt hlt, hfilter, Finset.card_insert_of_not_mem hnotmem, hinv]
  · unfold annInv
    simp

/-- C7 witness: concretely, announcing stealth address 7 a second time
fails, and the first announcement bumped the counter from 0 to 1 while
preserving the counter invariant. -/
theorem c7_witness :
    announce annA1 9 1 7 (List.replicate 33 2) [3] ≠ .ok annA1 ∧
    annA1.announcementCount = sysA.ann.announcementCount + 1 ∧
    annA1.announced 7 = true ∧ annInv annA1 := by
  have hok : announce sysA.ann 9 1 7 (List.replicate 33 2) [3] = .ok annA1 := rfl
  have h0 : annInv sysA.ann :=
    (c7_announce_unique_counter sysA.ann 9 1 7 (List.replicate 33 2) [3]).2.2
  have h2 := (c7_announce_unique_counter sysA.ann 9 1 7
    (List.replicate 33 2) [3]).2.1 h0 annA1 hok
  have h1 := (c7_announce_unique_counter annA1 9 1 7
    (List.replicate 33 2) [3]).1 h2.2.2.2.1 annA1
  exact ⟨h1, h2.1, h2.2.2.2.1, h2.2.2.2.2⟩

/-- C8: within the 24-hour window anchored at `lastResetTimestamp`, a
transaction that would push `spentToday` over `dailySpendLimit` fails
with the daily-limit error (and, being a revert, mutates nothing); any
successful `recordTransaction` leaves `spentToday` at or below the
limit; and once `now` reaches `lastResetTimestamp + 86400` the spent
counter is reset, so a transaction up to the full limit succeeds. -/
theorem c8_daily_limit_window (a : Agent) (amount now : Nat) :
    (a.isActive = true → now < a.lastResetTimestamp + ONE_DAY →
      a.dailySpendLimit < a.spentToday + amount → a.spentToday + amount < U256 →
      recordTransaction now a amount = .error .dailyLimitExceeded) ∧
    (∀ a', recordTransaction now a amount = .ok a' →
      a'.spentToday ≤ a'.dailySpendLimit ∧ a'.dailySpendLimit = a.dailySpendLimit) ∧
    (a.isActive = true → a.lastResetTimestamp + ONE_DAY ≤ now →
      amount ≤ a.dailySpendLimit →
      amount < U256 → a.totalTransactions + 1 < U256 →
      a.totalVolume + amount < U256 → a.reputationScore + 10 < U256 →
      ∃ a', recordTransaction now a amount = .ok a' ∧ a'.spentToday = amount ∧
        a'.lastResetTimestamp = now) := by
  refine ⟨?_, ?_, ?_⟩
  · intro hact hwin hover hnof
    unfold recordTransaction
    rw [if_neg (by simp [hact]), if_neg (by omega)]
    unfold recordTransactionBody
    rw [if_neg (by omega), if_pos (by omega)]
  · intro a' hok
    unfold recordTransaction at hok
    split at hok
    · exact Except.noConfusion hok
    · split at hok
      all_goals (
        unfold recordTransactionBody at hok
        split at hok
        · exact Except.noConfusion hok
        · split at hok
          · exact Except.noConfusion hok
          · split at hok
            · exact Except.noConfusion hok
            · split at hok
              · exact Except.noConfusion hok
              · split at hok
                · split at hok
                  · exact Except.noConfusion hok
                  · cases hok
                    rename_i ho1 hlim ho2 ho3 hrepc hof
                    constructor
                    · simpa using hlim
                    · rfl
                · cases hok
                  rename_i ho1 hlim ho2 ho3 hrepc
                  constructor
                  · simpa using hlim
                  · rfl)
  · intro hact hreset hamt hnof htx hvol hrep
    unfold recordTransaction
    rw [if_neg (by simp [hact]), if_pos (by omega)]
    unfold recordTransactionBody
    simp only []
    rw [if_neg (show ¬ U256 ≤ 0 + amount by unfold U256 at *; omega),
        if_neg (show ¬ ¬ (0 + amount ≤ a.dailySpendLimit) by omega),
        if_neg (show ¬ U256 ≤ a.totalTransactions + 1 by omega),
        if_neg (show ¬ U256 ≤ a.totalVolume + amount by omega)]
    by_cases hr : (a.totalTransactions + 1) % 10 = 0 ∧ a.reputationScore < 1000
    · rw [if_pos hr, if_neg (show ¬ U256 ≤ a.reputationScore + 10 by omega)]
      exact ⟨_, rfl, by simp, rfl⟩
    · rw [if_neg hr]
      exact ⟨_, rfl, by simp, rfl⟩

/-- C8 witness: `agentActive` (limit 1000, last reset at 500) cannot
spend 2000 at time 600; a successful spend of 500 keeps `spentToday`
within the limit; and at time 86900 — past the reset boundary — a spend
of the full 1000 succeeds with the window re-anchored. -/
theorem c8_witness :
    recordTransaction 600 agentActive 2000 = .error .dailyLimitExceeded ∧
    agentA'.spentToday ≤ agentA'.dailySpendLimit ∧
    recordTransaction 86900 agentActive 1000 = .ok agentC' ∧
    agentC'.spentToday = 1000 ∧ agentC'.lastResetTimestamp = 86900 := by
  have ha := (c8_daily_limit_window agentActive 2000 600).1
    (by decide) (by decide) (by decide) (by decide)
  have hb := ((c8_daily_limit_window agentActive 500 600).2.1 agentA' rfl).1
  obtain ⟨a', hok, hspent, hreset⟩ :=
    (c8_daily_limit_window agentActive 1000 86900).2.2 (by decide) (by decide)
      (by decide) (by decide) (by decide) (by decide) (by decide)
  have he : agentC' = a' := by
    unfold agentC'
    rw [hok]
    rfl
  exact ⟨ha, hb, by rw [he]; exact hok, by rw [he]; exact hspent,
    by rw [he]; exact hreset⟩

/-- C1: when `processPayment` settles an authorization, its nonce is
recorded as processed, and every subsequent presentation of the same
nonce — as a single call or as an item of any batch — fails with the
replay error while leaving all balances and router state unchanged. -/
theorem c1_exactly_once (s : Sys) (p : PaymentParams) (s' : Sys)
    (h : processPayment s p = (s', none)) :
    s'.router.processed p.nonce = true ∧
    (∀ q : PaymentParams, q.nonce = p.nonce →
      _processPayment s' q = .error .alreadyProcessed) ∧
    (∀ q : PaymentParams, q.nonce = p.nonce →
      processPayment s' q = (s', some .alreadyProcessed)) ∧
    (∀ ps : List PaymentParams, (∃ q ∈ ps, q.nonce = p.nonce) →
      (batchProcessPayments s' ps).1 = s' ∧ (batchProcessPayments s' ps).2 ≠ none) := by
  obtain ⟨hpause, a, f, hok⟩ := processPayment_ok_inv h
  obtain ⟨-, -, -, -, -, -, hrouter, -⟩ := _processPayment_ok_inv hok
  have hproc : s'.router.processed p.nonce = true := by
    rw [show s'.router.processed p.nonce
          = (burnNonce s p.nonce).router.processed p.nonce from by rw [hrouter],
        burnNonce_processed]
    simp
  have hpause' : s'.router.paused = false := by
    rw [show s'.router.paused = (burnNonce s p.nonce).router.paused from by rw [hrouter],
        burnNonce_paused]
    exact hpause
  refine ⟨hproc, ?_, ?_, ?_⟩
  · intro q hq
    exact _processPayment_replay (by rw [hq]; exact hproc)
  · intro q hq
    unfold processPayment
    rw [if_neg (by simp [hpause']), _processPayment_replay (by rw [hq]; exact hproc)]
  · intro ps hex
    exact batchProcessPayments_fails_of_processed hproc hex

/-- C1 witness: from `sysA`, payment `pA` settles; afterwards nonce 5 is
marked processed, repeating `pA` fails with the replay error leaving the
state untouched, and any batch containing an item with nonce 5 fails
with the state untouched. -/
theorem c1_witness :
    sysA'.router.processed pA.nonce = true ∧
    _processPayment sysA' pA = .error .alreadyProcessed ∧
    processPayment sysA' pA = (sysA', some .alreadyProcessed) ∧
    (batchProcessPayments sysA' [pA6, pA]).1 = sysA' ∧
    (batchProcessPayments sysA' [pA6, pA]).2 ≠ none := by
  have h2 : (processPayment sysA pA).2 = none := by decide
  have hh : processPayment sysA pA = (sysA', none) := by
    unfold sysA'
    rw [← h2]
  have h := c1_exactly_once sysA pA sysA' hh
  have hb := h.2.2.2 [pA6, pA] ⟨pA, by simp, rfl⟩
  exact ⟨h.1, h.2.1 pA rfl, h.2.2.1 pA rfl, hb.1, hb.2⟩

/-- C2 counterexample: from the underfunded `sysB`, processing `pA`
fails downstream of the nonce burn (the EIP-3009 redemption fails), yet
the post-state equals `sysB` exactly — the nonce is NOT left burned —
and after funding the payer (`sysB2`) the very same authorization
succeeds.  This refutes the claim that the nonce remains burned and the
authorization can never succeed afterwards. -/
theorem c2_counterexample :
    (processPayment sysB pA).2 = some .twaFailed ∧
    (processPayment sysB pA).1 = sysB ∧
    sysB.router.processed pA.nonce = false ∧
    (processPayment sysB2 pA).2 = none := by
  have h2 : (processPayment sysB pA).2 = some .twaFailed := by decide
  have hpair : processPayment sysB pA = ((processPayment sysB pA).1, some .twaFailed) := by
    rw [← h2]
  exact ⟨h2, processPayment_error_frame hpair, by decide, by decide⟩

/-- C2 amended: if anything after the nonce burn fails (in particular
the USDC redemption), the entire `processPayment` transaction reverts;
the nonce burn is rolled back with everything else, so the same
authorization stays fresh and a later retry can succeed. -/
theorem c2_amended_revert_rolls_back_burn (s : Sys) (p : PaymentParams) (t : Sys)
    (e : Err) (h : processPayment s p = (t, some e)) :
    t = s ∧ t.router.processed p.nonce = s.router.processed p.nonce := by
  have h1 := processPayment_error_frame h
  exact ⟨h1, by rw [h1]⟩

/-- C2 amended witness: the failed settlement from `sysB` leaves the
state, and in particular the processed-nonce mapping, unchanged. -/
theorem c2_amended_witness :
    (processPayment sysB pA).1 = sysB ∧
    (processPayment sysB pA).1.router.processed pA.nonce
      = sysB.router.processed pA.nonce := by
  have h2 : (processPayment sysB pA).2 = some .twaFailed := by decide
  have hpair : processPayment sysB pA = ((processPayment sysB pA).1, some .twaFailed) := by
    rw [← h2]
  exact c2_amended_revert_rolls_back_burn sysB pA _ _ hpair

/-- C5 counterexample: item `pA` settles on its own from `sysA` and
moves 9990 USDC to stealth address 7, but the batch `[pA, pBad]` — whose
second item fails the zero-amount check — reverts as a whole: the post
state is `sysA` again, so the first item's fund movements are rolled
back.  This refutes the claim that earlier items' movements survive a later
item's failure. -/
theorem c5_counterexample :
    (processPayment sysA pA).2 = none ∧
    (processPayment sysA pA).1.usdc.balances 7 = 9990 ∧
    sysA.usdc.balances 7 = 0 ∧
    (batchProcessPayments sysA [pA, pBad]).2 = some .zeroAmount ∧
    (batchProcessPayments sysA [pA, pBad]).1 = sysA := by
  have h2 : (batchProcessPayments sysA [pA, pBad]).2 = some .zeroAmount := by decide
  have hpair : batchProcessPayments sysA [pA, pBad]
      = ((batchProcessPayments sysA [pA, pBad]).1, some .zeroAmount) := by
    rw [← h2]
  exact ⟨by decide, by decide, by decide, h2, batchProcessPayments_error_frame hpair⟩

/-- C5 amended: `batchProcessPayments` is atomic across items — when any
item fails, the entire call reverts and no item's fund movements, nonce
burns or announcements persist. -/
theorem c5_amended_batch_atomic (s : Sys) (ps : List PaymentParams) (t : Sys)
    (e : Err) (h : batchProcessPayments s ps = (t, some e)) :
    t = s ∧ t.usdc = s.usdc ∧ t.ann = s.ann ∧ t.router = s.router := by
  have h1 := batchProcessPayments_error_frame h
  exact ⟨h1, by rw [h1], by rw [h1], by rw [h1]⟩

/-- C5 amended witness: the failing batch `[pA, pBad]` leaves `sysA`
completely unchanged. -/
theorem c5_amended_witness :
    (batchProcessPayments sysA [pA, pBad]).1 = sysA ∧
    (batchProcessPayments sysA [pA, pBad]).1.usdc = sysA.usdc := by
  have h2 : (batchProcessPayments sysA [pA, pBad]).2 = some .zeroAmount := by decide
  have hpair : batchProcessPayments sysA [pA, pBad]
      = ((batchProcessPayments sysA [pA, pBad]).1, some .zeroAmount) := by
    rw [← h2]
  have h := c5_amended_batch_atomic sysA [pA, pBad] _ _ hpair
  exact ⟨h.1, h.2.1⟩

/-- C4: when a payment settles, the fee the router charges equals
`floor(amount * feeBps / 10000)` and the stealth address is credited
exactly `amount - fee`; in particular `calculateFee 1 10 = 0` and
`calculateFee 10000 10 = 10`. -/
theorem c4_fee_formula_and_credit (s : Sys) (p : PaymentParams)
    (h : (processPayment s p).2 = none)
    (h1 : p.stealthAddress ≠ s.router.self)
    (h2 : p.stealthAddress ≠ s.router.feeVault)
    (h3 : p.stealthAddress ≠ p.fromAddr)
    (hw : s.usdc.balances p.stealthAddress
        + (p.amount - calculateFee p.amount s.router.platformFeeBps) < U256) :
    (∀ s' amt fee, _processPayment s p = .ok (s', amt, fee) →
      amt = p.amount ∧ fee = p.amount * s.router.platformFeeBps / 10000) ∧
    (processPayment s p).1.usdc.balances p.stealthAddress
      = s.usdc.balances p.stealthAddress
        + (p.amount - calculateFee p.amount s.router.platformFeeBps) ∧
    calculateFee 1 10 = 0 ∧ calculateFee 10000 10 = 10 := by
  have hpair : processPayment s p = ((processPayment s p).1, none) := by rw [← h]
  obtain ⟨hpause, a, f, hok⟩ := processPayment_ok_inv hpair
  refine ⟨?_, ?_, by decide, by decide⟩
  · intro s' amt fee hok'
    obtain ⟨hA, hF, -⟩ := _processPayment_ok_inv hok'
    exact ⟨hA, hF⟩
  · obtain ⟨hA, hF, -, -, -, -, -, -, -, -, -,
      ⟨u1, u2, htwa, hfeeb, hxfer⟩, -⟩ := _processPayment_ok_inv hok
    subst hF
    obtain ⟨-, -, -, -, hxf⟩ := twa_ok_inv htwa
    obtain ⟨-, -, -, hc1, -, -, -, -⟩ := erc20Transfer_ok_inv hxf
    have hu1 : u1.balances p.stealthAddress = s.usdc.balances p.stealthAddress :=
      hc1 p.stealthAddress h3 h1
    have hu2 : u2.balances p.stealthAddress = s.usdc.balances p.stealthAddress := by
      rcases hfeeb with ⟨-, hx⟩ | ⟨-, rfl⟩
      · obtain ⟨-, -, -, hc2, -, -, -, -⟩ := erc20Transfer_ok_inv hx
        rw [hc2 p.stealthAddress h1 h2]
        exact hu1
      · exact hu1
    obtain ⟨-, -, -, -, hc3, -, -, -⟩ := erc20Transfer_ok_inv hxfer
    rw [hc3 h1]
    rw [hu2]
    exact Nat.mod_eq_of_lt hw

/-- C4 witness: from `sysA`, payment `pA` (amount 10000 at 10 bps)
credits stealth address 7 with exactly 10000 - 10 = 9990, and the two
documented fee examples hold. -/
theorem c4_witness :
    (processPayment sysA pA).1.usdc.balances 7
      = sysA.usdc.balances 7 + (10000 - calculateFee 10000 10) ∧
    calculateFee 1 10 = 0 ∧ calculateFee 10000 10 = 10 := by
  have h := c4_fee_formula_and_credit sysA pA (by decide) (by decide) (by decide)
    (by decide) (by decide)
  exact ⟨h.2.1, h.2.2.1, h.2.2.2⟩

/-- C6: the EIP-3009 redemption checks that the settlement time lies in
the half-open window `[validAfter, validBefore)` and that the signature
recovers to the payer; a payment whose authorization is outside its
window or wrongly signed is rejected (`authNotYetValid` / `authExpired`
/ `signatureInvalid`), the corresponding checks of
X402Lib.validatePaymentParams agree, and any such rejection makes
`processPayment` revert with all ledger balances unchanged. -/
theorem c6_window_and_signature (s : Sys) (p : PaymentParams) :
    (s.now < p.validAfter →
      transferWithAuthorization s.usdc s.now (authOf s p) p.signature
        = .error .authNotYetValid) ∧
    (p.validAfter ≤ s.now → p.validBefore ≤ s.now →
      transferWithAuthorization s.usdc s.now (authOf s p) p.signature
        = .error .authExpired) ∧
    (p.validAfter ≤ s.now → s.now < p.validBefore →
      s.usdc.authUsed p.fromAddr p.nonce = false →
      recover (authOf s p) p.signature ≠ some p.fromAddr →
      transferWithAuthorization s.usdc s.now (authOf s p) p.signature
        = .error .signatureInvalid) ∧
    (∀ u', transferWithAuthorization s.usdc s.now (authOf s p) p.signature = .ok u' →
      p.validAfter ≤ s.now ∧ s.now < p.validBefore ∧
      recover (authOf s p) p.signature = some p.fromAddr) ∧
    (p.fromAddr ≠ 0 → p.amount ≠ 0 → s.now < p.validAfter →
      validatePaymentParams s.now p.fromAddr p.amount p.validAfter p.validBefore p.nonce
        = .error .authNotYetValid) ∧
    (p.fromAddr ≠ 0 → p.amount ≠ 0 → p.validAfter ≤ s.now → p.validBefore ≤ s.now →
      validatePaymentParams s.now p.fromAddr p.amount p.validAfter p.validBefore p.nonce
        = .error .authExpired) ∧
    ((∃ e, transferWithAuthorization s.usdc s.now (authOf s p) p.signature = .error e) →
      (processPayment s p).1 = s ∧ (processPayment s p).2 ≠ none) := by
  refine ⟨?_, ?_, ?_, ?_, ?_, ?_, ?_⟩
  · intro hb
    exact twa_notYetValid hb
  · intro ha hb
    exact twa_expired ha hb
  · intro ha hb hused hrec
    exact twa_badSig ha hb hused hrec
  · intro u' hok
    obtain ⟨ha, hb, -, hrec, -⟩ := twa_ok_inv hok
    exact ⟨ha, hb, hrec⟩
  · intro hfa hamt hb
    unfold validatePaymentParams
    rw [if_neg hfa, if_neg hamt, if_pos hb]
  · intro hfa hamt ha hb
    unfold validatePaymentParams
    rw [if_neg hfa, if_neg hamt, if_neg (by omega), if_pos (by omega)]
  · rintro ⟨e, he⟩
    exact processPayment_fails_of_twa_error he

/-- C6 witness: from `sysA`, the not-yet-valid payment `pLate`
(window starting at 2000, clock at 1000) is rejected by the redemption
with `authNotYetValid`, and `processPayment` reverts leaving the state
unchanged. -/
theorem c6_witness :
    transferWithAuthorization sysA.usdc sysA.now (authOf sysA pLate) pLate.signature
      = .error .authNotYetValid ∧
    (processPayment sysA pLate).1 = sysA ∧
    (processPayment sysA pLate).2 ≠ none := by
  have h := c6_window_and_signature sysA pLate
  have h1 := h.1 (by decide)
  have h7 := h.2.2.2.2.2.2 ⟨.authNotYetValid, h1⟩
  exact ⟨h1, h7.1, h7.2⟩

/-- C9: for a payer that is not registered in the agent registry, the
router performs no agent bookkeeping — a successful settlement leaves
the whole agent table unchanged — and the outcome of `_processPayment`
(error or success, together with all non-registry state and the returned
amount and fee) is independent of the agent table, in particular of any
daily spending limit recorded there. -/
theorem c9_unregistered_payer_not_consulted (s : Sys) (p : PaymentParams)
    (h : isRegistered s.reg p.fromAddr = false) :
    (∀ s' amt fee, _processPayment s p = .ok (s', amt, fee) → s'.reg = s.reg) ∧
    (∀ g : Address → Agent, (g p.fromAddr).isActive = false →
      Except.map (fun r => (r.1.usdc, r.1.ann, r.1.gate, r.1.router, r.1.now, r.2))
          (_processPayment { s with reg := { s.reg with agents := g } } p)
        = Except.map (fun r => (r.1.usdc, r.1.ann, r.1.gate, r.1.router, r.1.now, r.2))
          (_processPayment s p)) := by
  constructor
  · intro s' amt fee hok
    obtain ⟨-, -, -, -, -, -, -, -, -, hregF, -⟩ := _processPayment_ok_inv hok
    refine hregF ?_
    rintro ⟨-, hc⟩
    rw [h] at hc
    exact Bool.noConfusion hc
  · intro g hg
    exact _processPayment_reg_indep s p g (by simpa [isRegistered] using h) hg

/-- C9 witness: payer 1 is unregistered in `sysA`; replacing the whole
agent table by inactive records with zero limits (`sysAg`) changes
nothing observable about processing `pA`, and the successful settlement
leaves the agent table untouched. -/
theorem c9_witness :
    Except.map (fun r => (r.1.usdc, r.1.ann, r.1.gate, r.1.router, r.1.now, r.2))
        (_processPayment sysAg pA)
      = Except.map (fun r => (r.1.usdc, r.1.ann, r.1.gate, r.1.router, r.1.now, r.2))
        (_processPayment sysA pA) ∧
    (processPayment sysA pA).1.reg = sysA.reg := by
  have h := c9_unregistered_payer_not_consulted sysA pA (by decide)
  constructor
  · exact h.2 (fun _ => agentGhost) (by decide)
  · have h2 : (processPayment sysA pA).2 = none := by decide
    have hpair : processPayment sysA pA = ((processPayment sysA pA).1, none) := by
      rw [← h2]
    obtain ⟨-, a, f, hok⟩ := processPayment_ok_inv hpair
    exact h.1 _ a f hok

/-- C3: for keys produced by generateStealthKeys, whenever the sender
side generateStealthAddress succeeds, the recipient-side full check
(checkStealthAddress) on the resulting announcement with the matching
viewing private key and spending public key returns true, and the
scanner's tryMatch — view-tag filter included — returns a match whose
address equals the generated stealth address. -/
theorem c3_generate_then_match {G : Type} [AddCommGroup G] (C : Curve G)
    (s v e : Nat) (hv1 : 1 ≤ v) (hv2 : v < C.n)
    (out : Nat × G × Nat)
    (hgen : generateStealthAddress C e
      ((generateStealthKeys C s v).2.2.1, (generateStealthKeys C s v).2.2.2)
        = some out) :
    checkStealthAddress C (C.serPub out.2.1) (C.serPriv v) out.1
      (C.serPub ((generateStealthKeys C s v).2.2.1)) = true ∧
    tryMatch C out.1 (C.serPub out.2.1) out.2.2 (C.serPriv v)
      (C.serPub ((generateStealthKeys C s v).2.2.1)) = some out.1 := by
  unfold generateStealthKeys at hgen ⊢
  unfold generateStealthAddress at hgen
  simp only [] at hgen
  split at hgen
  · exact Option.noConfusion hgen
  · rename_i hnz
    cases hgen
    simp only []
    have hecdh : C.hash (v • e • C.gen) = C.hash (e • v • C.gen) :=
      congrArg C.hash (smul_comm v e C.gen)
    have hcheck : checkStealthAddress C (C.serPub (e • C.gen)) (C.serPriv v)
        (C.addressOf (s • C.gen + (C.hash (e • v • C.gen) % C.n) • C.gen))
        (C.serPub (s • C.gen)) = true := by
      unfold checkStealthAddress checkDerive
      rw [C.parsePriv_serPriv v hv1 hv2]
      simp only []
      rw [C.parsePub_serPub]
      simp only []
      rw [hecdh, if_neg hnz, C.parsePub_serPub]
      simp
    constructor
    · exact hcheck
    · unfold tryMatch
      rw [C.parsePriv_serPriv v hv1 hv2]
      simp only []
      rw [C.parsePub_serPub]
      simp only []
      rw [hecdh, if_neg (by simp), hcheck]
      rw [if_pos rfl]

/-- C3 witness: on the concrete tiny curve with spending, viewing and
ephemeral scalars all 1, generation yields stealth address 2 with view
tag 0, the full check accepts it, and tryMatch returns it. -/
theorem c3_witness :
    checkStealthAddress tinyCurve (tinyCurve.serPub ((1 : Nat) • (1 : ZMod 13)))
      (tinyCurve.serPriv 1) 2
      (tinyCurve.serPub ((generateStealthKeys tinyCurve 1 1).2.2.1)) = true ∧
    tryMatch tinyCurve 2 (tinyCurve.serPub ((1 : Nat) • (1 : ZMod 13))) 0
      (tinyCurve.serPriv 1)
      (tinyCurve.serPub ((generateStealthKeys tinyCurve 1 1).2.2.1)) = some 2 := by
  have h := c3_generate_then_match tinyCurve 1 1 1 (by decide) (by decide)
    (2, (1 : Nat) • (1 : ZMod 13), 0) (by decide)
  exact h

/-- C10: checkStealthAddress is total and never raises: whenever any
step of the derivation fails — the viewing key fails to decode, either
public key fails to decode, or the shared-secret hash reduces to the
zero scalar — it returns false; and when the derivation succeeds it is
true exactly when the derived address equals the announced one. -/
theorem c10_check_never_throws {G : Type} [AddCommGroup G] (C : Curve G)
    (eph vpriv spub : List Nat) (stealth : Nat) :
    (C.parsePriv vpriv = none →
      checkStealthAddress C eph vpriv stealth spub = false) ∧
    (C.parsePub eph = none →
      checkStealthAddress C eph vpriv stealth spub = false) ∧
    (C.parsePub spub = none →
      checkStealthAddress C eph vpriv stealth spub = false) ∧
    (∀ vp ep, C.parsePriv vpriv = some vp → C.parsePub eph = some ep →
      C.hash (vp • ep) % C.n = 0 →
      checkStealthAddress C eph vpriv stealth spub = false) ∧
    (checkDerive C eph vpriv spub = none →
      checkStealthAddress C eph vpriv stealth spub = false) ∧
    (∀ a, checkDerive C eph vpriv spub = some a →
      (checkStealthAddress C eph vpriv stealth spub = true ↔ a = stealth)) := by
  have base : checkDerive C eph vpriv spub = none →
      checkStealthAddress C eph vpriv stealth spub = false := by
    intro hnone
    unfold checkStealthAddress
    rw [hnone]
  refine ⟨?_, ?_, ?_, ?_, base, ?_⟩
  · intro h
    apply base
    unfold checkDerive
    rw [h]
  · intro h
    apply base
    unfold checkDerive
    cases hp : C.parsePriv vpriv with
    | none => rfl
    | some vp =>
      simp only []
      rw [h]
  · intro h
    apply base
    unfold checkDerive
    cases hp : C.parsePriv vpriv with
    | none => rfl
    | some vp =>
      simp only []
      cases hq : C.parsePub eph with
      | none => rfl
      | some ep =>
        simp only []
        by_cases hz : C.hash (vp • ep) % C.n = 0
        · rw [if_pos hz]
        · rw [if_neg hz, h]
  · intro vp ep hvp hep hz
    apply base
    unfold checkDerive
    rw [hvp]
    simp only []
    rw [hep]
    simp only []
    rw [if_pos hz]
  · intro a ha
    unfold checkStealthAddress
    rw [ha]
    simp

/-- C10 witness: on the tiny curve, an empty viewing key, an off-range
ephemeral key and a malformed spending key each make checkStealthAddress
return false rather than raise, and a successful derivation compares
addresses. -/
theorem c10_witness :
    checkStealthAddress tinyCurve [2] [] 2 [1] = false ∧
    checkStealthAddress tinyCurve [99] [1] 2 [1] = false ∧
    checkStealthAddress tinyCurve [2] [1] 2 [1, 1] = false := by
  refine ⟨?_, ?_, ?_⟩
  · exact (c10_check_never_throws tinyCurve [2] [] [1] 2).1 (by decide)
  · exact (c10_check_never_throws tinyCurve [99] [1] [1] 2).2.1 (by decide)
  · exact (c10_check_never_throws tinyCurve [2] [1] [1, 1] 2).2.2.1 (by decide)

end StealthPay
